import Mathlib

/-!
Shallow embedding of `src/DigNetwork/PropagationServer.ts` from the
dig-chia-sdk repository: the client side of a peer-to-peer
content-propagation protocol (upload and download of content-addressed
DataStore snapshots).  Network calls and external collaborators
(peer responses, credential prompt, wallet) are modelled as an explicit
environment; each operation is a pure function from the environment to a
trace of observable events together with an `Except` result, mirroring the
control flow of the TypeScript source line by line.
-/

namespace DigSdk

/-- Result of `checkStoreExists` (HEAD probe): the `x-store-exists` and
`x-has-root-hash` response headers compared against the string "true". -/
structure ProbeResult where
  storeExists : Bool
  rootHashExists : Bool
deriving DecidableEq

/-- Credentials returned by the external `promptCredentials` collaborator. -/
structure Credentials where
  username : String
  password : String
deriving DecidableEq

/-- Result of `getFileNonce` (HEAD probe): the `x-nonce` header and the
`x-file-exists` header compared against "true". -/
structure NonceResult where
  nonce : String
  fileExists : Bool
deriving DecidableEq

/-- A transfer task as built in `uploadStore` / `downloadStore`:
`{ label: file.name, dataPath: file.path }`. -/
structure FileTask where
  label : String
  dataPath : String
deriving DecidableEq

/-- Error taxonomy: each constructor corresponds to a `throw` site in the
source. -/
inductive Err where
  | probeError
  | storeMissing
  | sessionStartError
  | nonceError
  | transferError
  | commitError
  | missingContentLength
  | parseError
deriving DecidableEq

/-- Observable events of one operation, in program order: each network
request, the credential prompt, the signature production, the single write
to the in-memory `sessionId` field, and local file writes. -/
inductive Event where
  | probeStore (rootHash : String)
  | promptCreds
  | startSessionPost (auth : Option Credentials)
  | setSessionId (sid : String)
  | nonceHead (sid : String) (dataPath : String)
  | sign (nonce : String)
  | putFile (sid : String) (dataPath : String) (nonce : String)
  | commitPost (sid : String) (auth : Option Credentials)
  | getFetch (dataPath : String)
  | streamBody (dataPath : String) (len : Int)
  | writeLocal (dataPath : String)
  | writeManifest
deriving DecidableEq

/-- The mutable fields of the `PropagationServer` class instance that the
protocol logic reads and writes (certificate paths and wallet are opaque to
the claims and omitted). -/
structure Server where
  ipAddress : String
  storeId : String
  sessionId : String
  username : Option String
  password : Option String
deriving DecidableEq

/-- The constructor: `this.sessionId = ""`, no credentials. -/
def initServer (ipAddress storeId : String) : Server :=
  ⟨ipAddress, storeId, "", none, none⟩

/-- The `if (this.username && this.password)` truthiness guard used by both
`startUploadSession` and `commitUploadSession`: Basic auth is attached only
when both fields are set and non-empty (a JS empty string is falsy). -/
def authConfig (srv : Server) : Option Credentials :=
  match srv.username, srv.password with
  | some u, some p => if u ≠ "" ∧ p ≠ "" then some ⟨u, p⟩ else none
  | _, _ => none

/-- `Except` result as a boolean (promise resolved vs. rejected). -/
def exOk {ε α : Type} : Except ε α → Bool
  | .ok _ => true
  | .error _ => false

/-- The environment of one `uploadStore` run: the peer's responses and the
external collaborators, all fixed before the run. -/
structure UploadEnv where
  probe : Except Unit ProbeResult
  credentials : Credentials
  manifestPresent : Bool
  startSession : Except Unit String
  files : List FileTask
  nonceResp : String → Except Unit NonceResult
  putResp : String → Except Unit Unit
  commitResp : Except Unit Unit

/-- `uploadFile` (source lines 206-293): request the per-file nonce; if the
peer reports the file as existing, return without signing or PUTting;
otherwise produce the key-ownership signature and PUT the body. -/
def uploadFile (env : UploadEnv) (srv : Server) (t : FileTask) :
    List Event × Except Err Unit :=
  match env.nonceResp t.dataPath with
  | .error _ => ([.nonceHead srv.sessionId t.dataPath], .error .nonceError)
  | .ok nr =>
    if nr.fileExists then
      ([.nonceHead srv.sessionId t.dataPath], .ok ())
    else
      match env.putResp t.dataPath with
      | .error _ =>
          ([.nonceHead srv.sessionId t.dataPath, .sign nr.nonce,
            .putFile srv.sessionId t.dataPath nr.nonce], .error .transferError)
      | .ok _ =>
          ([.nonceHead srv.sessionId t.dataPath, .sign nr.nonce,
            .putFile srv.sessionId t.dataPath nr.nonce], .ok ())

/-- Modelled from the spec: `asyncPool` is imported from
`../utils/asyncPool`, which is not among the given sources.  Per the spec
(§4.5 TransferScheduler) it returns only after every task has reached a
terminal outcome, does not cancel in-flight siblings on failure, and its
returned promise rejects when any task rejected.  This sequentialises the
trace (interleaving is irrelevant to the trace-level claims; the
concurrency bound itself is modelled separately by `PoolStep`): all task
traces appear, and the aggregate succeeds exactly when every task did. -/
def runTasks (env : UploadEnv) (srv : Server) : List FileTask → List Event × Bool
  | [] => ([], true)
  | t :: ts =>
      let r := uploadFile env srv t
      let rs := runTasks env srv ts
      (r.1 ++ rs.1, exOk r.2 && rs.2)

/-- Lines 347-355 of `uploadStore`: when the store does not exist, prompt
for credentials and store them on the instance. -/
def promptedServer (env : UploadEnv) (srv : Server) (pr : ProbeResult) : Server :=
  if pr.storeExists then srv
  else { srv with username := some env.credentials.username,
                  password := some env.credentials.password }

/-- The trace of the credential-prompt block (empty when the store exists). -/
def promptEvents (pr : ProbeResult) : List Event :=
  if pr.storeExists then [] else [.promptCreds]

/-- `startUploadSession` (lines 123-170) followed by the task fan-out and
`commitUploadSession` (lines 298-328), as sequenced by `uploadStore` lines
366-389: the manifest file must exist locally before the POST; the session
id from the response is written to the instance; commit is issued only
after the task pool resolved. -/
def startAndUpload (env : UploadEnv) (srv : Server) : List Event × Except Err Unit :=
  if env.manifestPresent then
    match env.startSession with
    | .error _ => ([.startSessionPost (authConfig srv)], .error .sessionStartError)
    | .ok sid =>
        let srv2 := { srv with sessionId := sid }
        let tr := runTasks env srv2 env.files
        if tr.2 then
          ([.startSessionPost (authConfig srv), .setSessionId sid] ++ tr.1
             ++ [.commitPost sid (authConfig srv2)],
           match env.commitResp with
           | .ok _ => .ok ()
           | .error _ => .error .commitError)
        else
          ([.startSessionPost (authConfig srv), .setSessionId sid] ++ tr.1,
           .error .transferError)
  else ([], .error .sessionStartError)

/-- `uploadStore` after a successful probe (lines 347-389): prompt when the
store is missing, then the rootHashExists short-circuit (note the source
checks `rootHashExists` only AFTER the prompt block), then session start,
upload fan-out and commit. -/
def afterProbe (env : UploadEnv) (srv0 : Server) (pr : ProbeResult) :
    List Event × Except Err Unit :=
  if pr.rootHashExists then (promptEvents pr, .ok ())
  else
    let r := startAndUpload env (promptedServer env srv0 pr)
    (promptEvents pr ++ r.1, r.2)

/-- `uploadStore` (lines 333-394), a fresh `PropagationServer` per call. -/
def uploadStore (env : UploadEnv) (storeId rootHash ipAddress : String) :
    List Event × Except Err Unit :=
  match env.probe with
  | .error _ => ([.probeStore rootHash], .error .probeError)
  | .ok pr =>
      let r := afterProbe env (initServer ipAddress storeId) pr
      (Event.probeStore rootHash :: r.1, r.2)

/-- A GET response as the client observes it: the `content-length` header
(when present) and the streamed body bytes. -/
structure GetResp where
  contentLength : Option String
  body : List Nat
deriving DecidableEq

/-- Numeric value of a list of decimal digit characters. -/
def digitsVal (cs : List Char) : Nat :=
  cs.foldl (fun a c => a * 10 + (c.toNat - 48)) 0

/-- JavaScript `parseInt(s, 10)`: skip leading whitespace, read an optional
sign, then the maximal prefix of decimal digits; `none` models `NaN` (no
digits found). -/
def parseIntTS (s : String) : Option Int :=
  let cs := s.data.dropWhile (fun c => c.isWhitespace)
  let signed : Int × List Char :=
    match cs with
    | '-' :: rest => (-1, rest)
    | '+' :: rest => (1, rest)
    | _ => (1, cs)
  let ds := signed.2.takeWhile (fun c => c.isDigit)
  if ds.isEmpty then none else some (signed.1 * (digitsVal ds : Int))

/-- The `totalLength` local of `fetchFile`/`downloadFile` (lines 411-414 and
524-527): `totalLengthHeader ? parseInt(totalLengthHeader, 10) : null` — an
absent or empty header yields `null` (`none`); otherwise the `parseInt`
value, with `NaN` also modelled as `none`. -/
def totalLengthOf (h : Option String) : Option Int :=
  match h with
  | none => none
  | some s => if s = "" then none else parseIntTS s

/-- The `if (!totalLength) throw` guard (lines 416-418 and 529-531): the
body is streamed only when `totalLength` is truthy, i.e. parsed and
non-zero; JS `!0` and `!NaN` and `!null` are all `true`. -/
def checkedLength (h : Option String) : Option Int :=
  match totalLengthOf h with
  | none => none
  | some n => if n = 0 then none else some n

/-- `fetchFile` (lines 400-470): GET the file, require a truthy
`content-length`, stream the body into memory and return it. -/
def fetchFile (resp : Except Unit GetResp) (dataPath : String) :
    List Event × Except Err (List Nat) :=
  match resp with
  | .error _ => ([.getFetch dataPath], .error .transferError)
  | .ok r =>
    match checkedLength r.contentLength with
    | none => ([.getFetch dataPath], .error .missingContentLength)
    | some n => ([.getFetch dataPath, .streamBody dataPath n], .ok r.body)

/-- `downloadFile` (lines 508-583): GET the file, require a truthy
`content-length`, stream the body to the local destination path. -/
def downloadFile (resp : Except Unit GetResp) (label dataPath : String) :
    List Event × Except Err Unit :=
  match resp with
  | .error _ => ([.getFetch dataPath], .error .transferError)
  | .ok r =>
    match checkedLength r.contentLength with
    | none => ([.getFetch dataPath], .error .missingContentLength)
    | some n =>
        ([.getFetch dataPath, .streamBody dataPath n, .writeLocal dataPath], .ok ())

/-- The environment of one `downloadStore` run.  `parseManifest` models
`JSON.parse` on the fetched manifest bytes together with
`getFilePathFromSha256` and the hex decoding of file keys (lines 609-623);
those helpers live in `../utils`, outside the given sources, so the parsed
task list is taken as an oracle on the body bytes. -/
structure DownloadEnv where
  probe : Except Unit ProbeResult
  manifestGet : Except Unit GetResp
  parseManifest : List Nat → Except Unit (List FileTask)
  fileGet : String → Except Unit GetResp

/-- Modelled from the spec: the download fan-out through `asyncPool`
(`../utils/asyncPool`, not among the given sources), sequentialised exactly
as `runTasks` is for uploads. -/
def runDownloads (env : DownloadEnv) : List FileTask → List Event × Bool
  | [] => ([], true)
  | t :: ts =>
      let r := downloadFile (env.fileGet t.dataPath) t.label t.dataPath
      let rs := runDownloads env ts
      (r.1 ++ rs.1, exOk r.2 && rs.2)

/-- `downloadStore` after a successful probe (lines 601-644): require both
existence flags, fetch and parse the manifest, fan out the file downloads,
then persist the manifest locally (the probe event itself is prepended by
`downloadStore`). -/
def downloadAfterProbe (env : DownloadEnv) (rootHash : String) (pr : ProbeResult) :
    List Event × Except Err Unit :=
  if pr.storeExists = false ∨ pr.rootHashExists = false then
    ([], .error .storeMissing)
  else
    match (fetchFile env.manifestGet (rootHash ++ ".dat")).2 with
    | .error e => ((fetchFile env.manifestGet (rootHash ++ ".dat")).1, .error e)
    | .ok body =>
      match env.parseManifest body with
      | .error _ => ((fetchFile env.manifestGet (rootHash ++ ".dat")).1, .error .parseError)
      | .ok tasks =>
          if (runDownloads env tasks).2 then
            ((fetchFile env.manifestGet (rootHash ++ ".dat")).1
               ++ (runDownloads env tasks).1 ++ [.writeManifest], .ok ())
          else
            ((fetchFile env.manifestGet (rootHash ++ ".dat")).1
               ++ (runDownloads env tasks).1, .error .transferError)

/-- `downloadStore` (lines 588-645): probe first, then the rest. -/
def downloadStore (env : DownloadEnv) (storeId rootHash ipAddress : String) :
    List Event × Except Err Unit :=
  match env.probe with
  | .error _ => ([.probeStore rootHash], .error .probeError)
  | .ok pr =>
      (Event.probeStore rootHash :: (downloadAfterProbe env rootHash pr).1,
       (downloadAfterProbe env rootHash pr).2)

/-- The `concurrencyLimit` constant of `uploadStore` (line 379). -/
def uploadConcurrencyLimit : Nat := 3

/-- The `concurrencyLimit` constant of `downloadStore` (line 626). -/
def downloadConcurrencyLimit : Nat := 5

/-- A state of the bounded-concurrency pool: tasks not yet started, tasks
currently in flight, tasks that reached a terminal outcome. -/
structure PoolState where
  pending : List FileTask
  inflight : List FileTask
  done : List FileTask
deriving DecidableEq

/-- Modelled from the spec: `asyncPool` (`../utils/asyncPool`, not among
the given sources) per §4.5 TransferScheduler executes at most `limit`
tasks concurrently, starting queued tasks in input order with unspecified
completion order.  A step either starts the next pending task — only while
fewer than `limit` are in flight — or retires an in-flight task. -/
inductive PoolStep (limit : Nat) : PoolState → PoolState → Prop
  | start (t : FileTask) (rest : List FileTask) (s : PoolState) :
      s.inflight.length < limit → s.pending = t :: rest →
      PoolStep limit s ⟨rest, t :: s.inflight, s.done⟩
  | finish (t : FileTask) (s : PoolState) :
      t ∈ s.inflight →
      PoolStep limit s ⟨s.pending, s.inflight.erase t, t :: s.done⟩

/-- The pool starts with every task pending and none in flight. -/
def poolInit (tasks : List FileTask) : PoolState := ⟨tasks, [], []⟩

/-- States the pool can be in during a run over `tasks`. -/
def PoolReachable (limit : Nat) (tasks : List FileTask) (s : PoolState) : Prop :=
  Relation.ReflTransGen (PoolStep limit) (poolInit tasks) s

/-! ### Trace helpers -/

/-- Is the event the commit POST (`commitUploadSession`)? -/
def isCommitEv : Event → Bool
  | .commitPost _ _ => true
  | _ => false

/-- Is the event the session-start POST (`startUploadSession`)? -/
def isSessionStartEv : Event → Bool
  | .startSessionPost _ => true
  | _ => false

/-- Is the event a per-file nonce request (`getFileNonce`)? -/
def isNonceEv : Event → Bool
  | .nonceHead _ _ => true
  | _ => false

/-- Is the event a file-body PUT? -/
def isPutEv : Event → Bool
  | .putFile _ _ _ => true
  | _ => false

/-- Is the event a signature production by the wallet? -/
def isSignEv : Event → Bool
  | .sign _ => true
  | _ => false

/-- Is the event the interactive credential prompt? -/
def isPromptEv : Event → Bool
  | .promptCreds => true
  | _ => false

/-- Is the event a streamed response body? -/
def isStreamEv : Event → Bool
  | .streamBody _ _ => true
  | _ => false

/-- Number of events in a trace satisfying `p`. -/
def countEv (p : Event → Bool) (tr : List Event) : Nat := (tr.filter p).length

/-- The session id an event reads from the instance, when it reads one. -/
def usedSid : Event → Option String
  | .nonceHead s _ => some s
  | .putFile s _ _ => some s
  | .commitPost s _ => some s
  | _ => none

/-- The session id an event writes to the instance, when it writes one. -/
def setSid : Event → Option String
  | .setSessionId s => some s
  | _ => none

/-- All session ids read by the events of a trace, in order. -/
def usedSids (tr : List Event) : List String := tr.filterMap usedSid

/-- All session ids written by the events of a trace, in order. -/
def setSids (tr : List Event) : List String := tr.filterMap setSid

/-- Does the whole `uploadFile` call for task `t` succeed in environment
`env`?  From the source: the nonce HEAD must succeed, and then either the
peer already has the file or the PUT succeeds. -/
def taskOk (env : UploadEnv) (t : FileTask) : Bool :=
  match env.nonceResp t.dataPath with
  | .error _ => false
  | .ok nr => nr.fileExists || exOk (env.putResp t.dataPath)

/-! ### Lemmas about single-file upload and the task fan-out -/

theorem uploadFile_snd (env : UploadEnv) (srv : Server) (t : FileTask) :
    exOk (uploadFile env srv t).2 = taskOk env t := by
  unfold uploadFile taskOk
  rcases env.nonceResp t.dataPath with e | nr
  · rfl
  · by_cases hfe : nr.fileExists
    · simp [hfe, exOk]
    · rcases hput : env.putResp t.dataPath with e | u <;> simp [hfe, hput, exOk]

theorem uploadFile_events (env : UploadEnv) (srv : Server) (t : FileTask) :
    ∀ e ∈ (uploadFile env srv t).1,
      isCommitEv e = false ∧ isSessionStartEv e = false ∧ isPromptEv e = false ∧
      setSid e = none ∧ (usedSid e = none ∨ usedSid e = some srv.sessionId) := by
  unfold uploadFile
  rcases env.nonceResp t.dataPath with e | nr
  · intro e he; simp at he; subst he
    exact ⟨rfl, rfl, rfl, rfl, Or.inr rfl⟩
  · by_cases hfe : nr.fileExists
    · simp only [hfe, if_pos]
      intro e he; simp at he; subst he
      exact ⟨rfl, rfl, rfl, rfl, Or.inr rfl⟩
    · simp only [hfe, if_neg, Bool.false_eq_true, not_false_iff]
      rcases hput : env.putResp t.dataPath with u | u <;>
      · intro e he
        simp only [List.mem_cons, List.not_mem_nil, or_false] at he
        rcases he with h | h | h <;> subst h
        · exact ⟨rfl, rfl, rfl, rfl, Or.inr rfl⟩
        · exact ⟨rfl, rfl, rfl, rfl, Or.inl rfl⟩
        · exact ⟨rfl, rfl, rfl, rfl, Or.inr rfl⟩

theorem uploadFile_head (env : UploadEnv) (srv : Server) (t : FileTask) :
    Event.nonceHead srv.sessionId t.dataPath ∈ (uploadFile env srv t).1 := by
  unfold uploadFile
  rcases env.nonceResp t.dataPath with e | nr
  · simp
  · by_cases hfe : nr.fileExists
    · simp [hfe]
    · rcases env.putResp t.dataPath with u | u <;> simp [hfe]

theorem runTasks_snd (env : UploadEnv) (srv : Server) (ts : List FileTask) :
    (runTasks env srv ts).2 = ts.all (fun t => taskOk env t) := by
  induction ts with
  | nil => rfl
  | cons t ts ih =>
      simp only [runTasks, List.all_cons, uploadFile_snd, ih]

theorem runTasks_events (env : UploadEnv) (srv : Server) (ts : List FileTask) :
    ∀ e ∈ (runTasks env srv ts).1,
      isCommitEv e = false ∧ isSessionStartEv e = false ∧ isPromptEv e = false ∧
      setSid e = none ∧ (usedSid e = none ∨ usedSid e = some srv.sessionId) := by
  induction ts with
  | nil => intro e he; simp [runTasks] at he
  | cons t ts ih =>
      intro e he
      simp only [runTasks, List.mem_append] at he
      rcases he with h | h
      · exact uploadFile_events env srv t e h
      · exact ih e h

theorem runTasks_mem_nonce (env : UploadEnv) (srv : Server) (ts : List FileTask) :
    ∀ t ∈ ts, Event.nonceHead srv.sessionId t.dataPath ∈ (runTasks env srv ts).1 := by
  induction ts with
  | nil => intro t ht; simp at ht
  | cons t0 ts ih =>
      intro t ht
      simp only [List.mem_cons] at ht
      simp only [runTasks, List.mem_append]
      rcases ht with h | h
      · subst h; exact Or.inl (uploadFile_head env srv t)
      · exact Or.inr (ih t h)

theorem runTasks_no_commit (env : UploadEnv) (srv : Server) (ts : List FileTask) :
    countEv isCommitEv (runTasks env srv ts).1 = 0 := by
  unfold countEv
  rw [List.length_eq_zero, List.filter_eq_nil_iff]
  intro e he
  simp [(runTasks_events env srv ts e he).1]

/-! ### Branch-shape lemmas for `uploadStore` -/

theorem uploadStore_probe_err (env : UploadEnv) (storeId rootHash ip : String)
    (e : Unit) (hp : env.probe = .error e) :
    uploadStore env storeId rootHash ip = ([Event.probeStore rootHash], .error .probeError) := by
  unfold uploadStore; rw [hp]

theorem uploadStore_probe_ok (env : UploadEnv) (storeId rootHash ip : String)
    (pr : ProbeResult) (hp : env.probe = .ok pr) :
    uploadStore env storeId rootHash ip
      = (Event.probeStore rootHash :: (afterProbe env (initServer ip storeId) pr).1,
         (afterProbe env (initServer ip storeId) pr).2) := by
  unfold uploadStore; rw [hp]

theorem afterProbe_short (env : UploadEnv) (srv0 : Server) (pr : ProbeResult)
    (hrh : pr.rootHashExists = true) :
    afterProbe env srv0 pr = (promptEvents pr, .ok ()) := by
  unfold afterProbe; rw [hrh]; rfl

theorem afterProbe_go (env : UploadEnv) (srv0 : Server) (pr : ProbeResult)
    (hrh : pr.rootHashExists = false) :
    afterProbe env srv0 pr
      = (promptEvents pr ++ (startAndUpload env (promptedServer env srv0 pr)).1,
         (startAndUpload env (promptedServer env srv0 pr)).2) := by
  unfold afterProbe; rw [hrh]; rfl

theorem startAndUpload_shape (env : UploadEnv) (srv : Server) :
    (env.manifestPresent = false ∧ (startAndUpload env srv).1 = []) ∨
    (env.manifestPresent = true ∧
      ((∃ e, env.startSession = .error e ∧
         (startAndUpload env srv).1 = [Event.startSessionPost (authConfig srv)]) ∨
       (∃ sid, env.startSession = .ok sid ∧
         (((runTasks env { srv with sessionId := sid } env.files).2 = false ∧
            (startAndUpload env srv).1
              = [Event.startSessionPost (authConfig srv), Event.setSessionId sid]
                  ++ (runTasks env { srv with sessionId := sid } env.files).1) ∨
          ((runTasks env { srv with sessionId := sid } env.files).2 = true ∧
            (startAndUpload env srv).1
              = [Event.startSessionPost (authConfig srv), Event.setSessionId sid]
                  ++ (runTasks env { srv with sessionId := sid } env.files).1
                  ++ [Event.commitPost sid (authConfig { srv with sessionId := sid })]))))) := by
  by_cases hm : env.manifestPresent
  · refine Or.inr ⟨hm, ?_⟩
    rcases hs : env.startSession with e | sid
    · refine Or.inl ⟨e, rfl, ?_⟩
      simp [startAndUpload, hm, hs]
    · refine Or.inr ⟨sid, rfl, ?_⟩
      by_cases hr : (runTasks env { srv with sessionId := sid } env.files).2
      · refine Or.inr ⟨hr, ?_⟩
        simp [startAndUpload, hm, hs, hr]
      · refine Or.inl ⟨by simpa using hr, ?_⟩
        simp [startAndUpload, hm, hs, hr]
  · exact Or.inl ⟨by simpa using hm, by simp [startAndUpload, hm]⟩

theorem promptEvents_mem (pr : ProbeResult) :
    ∀ e ∈ promptEvents pr, e = Event.promptCreds := by
  unfold promptEvents
  by_cases h : pr.storeExists <;> simp [h]

theorem fetchFile_getFirst (resp : Except Unit GetResp) (dataPath : String) :
    Event.getFetch dataPath ∈ (fetchFile resp dataPath).1 := by
  unfold fetchFile
  rcases resp with e | r
  · simp
  · rcases h : checkedLength r.contentLength with _ | n <;> simp [h]

/-! ### Sample environments used by witnesses and counterexamples -/

def taskSample : FileTask := ⟨"file1", "data/aa"⟩

def srvSample : Server := ⟨"ip", "s", "sess1", none, none⟩

/-- A run where the peer already has the root hash (and the store). -/
def envReplicated : UploadEnv :=
  { probe := .ok ⟨true, true⟩
    credentials := ⟨"alice", "pw"⟩
    manifestPresent := true
    startSession := .ok "sess1"
    files := [taskSample]
    nonceResp := fun _ => .ok ⟨"n1", false⟩
    putResp := fun _ => .ok ()
    commitResp := .ok () }

/-- A run where the store is missing but the root hash is reported present. -/
def envShort : UploadEnv :=
  { probe := .ok ⟨false, true⟩
    credentials := ⟨"alice", "pw"⟩
    manifestPresent := true
    startSession := .ok "sess1"
    files := []
    nonceResp := fun _ => .ok ⟨"n1", false⟩
    putResp := fun _ => .ok ()
    commitResp := .ok () }

/-- A run where the peer reports every file as already uploaded. -/
def envSkip : UploadEnv :=
  { probe := .ok ⟨true, false⟩
    credentials := ⟨"alice", "pw"⟩
    manifestPresent := true
    startSession := .ok "sess1"
    files := [taskSample]
    nonceResp := fun _ => .ok ⟨"n1", true⟩
    putResp := fun _ => .error ()
    commitResp := .ok () }

/-- A download run whose probe reports the store as missing. -/
def envDownNo : DownloadEnv :=
  { probe := .ok ⟨false, true⟩
    manifestGet := .ok ⟨some "1", [1]⟩
    parseManifest := fun _ => .ok []
    fileGet := fun _ => .ok ⟨some "1", [1]⟩ }

/-! ### Claim theorems -/

/-- C2: Skip-if-already-replicated — whenever the store probe reports
`rootHashExists = true`, `uploadStore` returns successfully without
starting an upload session, without requesting any nonce, without
transferring any file body, and without committing. -/
theorem upload_skip_replicated (env : UploadEnv) (storeId rootHash ip : String)
    (pr : ProbeResult) (hp : env.probe = .ok pr) (hrh : pr.rootHashExists = true) :
    (uploadStore env storeId rootHash ip).2 = .ok () ∧
    ∀ e ∈ (uploadStore env storeId rootHash ip).1,
      isSessionStartEv e = false ∧ isNonceEv e = false ∧ isPutEv e = false ∧
      isCommitEv e = false := by
  have htr : uploadStore env storeId rootHash ip
      = (Event.probeStore rootHash :: promptEvents pr, .ok ()) := by
    rw [uploadStore_probe_ok env storeId rootHash ip pr hp,
        afterProbe_short env _ pr hrh]
  rw [htr]
  refine ⟨rfl, ?_⟩
  intro e he
  simp only [List.mem_cons] at he
  rcases he with h | h
  · subst h; exact ⟨rfl, rfl, rfl, rfl⟩
  · rw [promptEvents_mem pr e h]; exact ⟨rfl, rfl, rfl, rfl⟩

theorem upload_skip_replicated_witness :
    (uploadStore envReplicated "s" "r" "ip").2 = .ok () ∧
    ∀ e ∈ (uploadStore envReplicated "s" "r" "ip").1,
      isSessionStartEv e = false ∧ isNonceEv e = false ∧ isPutEv e = false ∧
      isCommitEv e = false :=
  upload_skip_replicated envReplicated "s" "r" "ip" ⟨true, true⟩ rfl rfl

/-- C3: Idempotent skip on upload — when the per-file nonce probe reports
the file as already existing for the active session, `uploadFile` returns
successfully with zero body transfer: no PUT request and no signature
produced. -/
theorem upload_file_idempotent_skip (env : UploadEnv) (srv : Server) (t : FileTask)
    (nr : NonceResult) (hn : env.nonceResp t.dataPath = .ok nr)
    (hex : nr.fileExists = true) :
    (uploadFile env srv t).2 = .ok () ∧
    ∀ e ∈ (uploadFile env srv t).1, isPutEv e = false ∧ isSignEv e = false := by
  have htr : uploadFile env srv t
      = ([Event.nonceHead srv.sessionId t.dataPath], .ok ()) := by
    unfold uploadFile; rw [hn]; simp [hex]
  rw [htr]
  refine ⟨rfl, ?_⟩
  intro e he
  simp only [List.mem_singleton] at he
  subst he
  exact ⟨rfl, rfl⟩

theorem upload_file_idempotent_skip_witness :
    (uploadFile envSkip srvSample taskSample).2 = .ok () ∧
    ∀ e ∈ (uploadFile envSkip srvSample taskSample).1,
      isPutEv e = false ∧ isSignEv e = false :=
  upload_file_idempotent_skip envSkip srvSample taskSample ⟨"n1", true⟩ rfl rfl

/-- C7 counterexample: with `storeExists = false` and `rootHashExists = true`
the run terminates successfully, yet the credential prompt IS invoked — the
source checks the store-existence prompt block (lines 348-355) before the
root-hash short-circuit (lines 357-364), so the claimed
prompt-free termination is refuted at this concrete input. -/
theorem upload_shortcircuit_prompt_cex :
    (uploadStore envShort "s" "r" "ip").2 = .ok () ∧
    Event.promptCreds ∈ (uploadStore envShort "s" "r" "ip").1 := by
  constructor
  · rfl
  · simp [uploadStore, envShort, afterProbe, promptEvents]

/-- C7 amended: when the probe reports `rootHashExists = true`,
`uploadStore` terminates successfully without starting a session, but the
credential prompt is still invoked first whenever `storeExists = false`:
the trace is exactly the probe followed by the prompt (when the store is
missing) and nothing else. -/
theorem upload_shortcircuit_amended (env : UploadEnv) (storeId rootHash ip : String)
    (pr : ProbeResult) (hp : env.probe = .ok pr) (hrh : pr.rootHashExists = true) :
    (uploadStore env storeId rootHash ip).2 = .ok () ∧
    (uploadStore env storeId rootHash ip).1
      = Event.probeStore rootHash
          :: (if pr.storeExists then [] else [Event.promptCreds]) := by
  have htr : uploadStore env storeId rootHash ip
      = (Event.probeStore rootHash :: promptEvents pr, .ok ()) := by
    rw [uploadStore_probe_ok env storeId rootHash ip pr hp,
        afterProbe_short env _ pr hrh]
  rw [htr]
  exact ⟨rfl, rfl⟩

theorem upload_shortcircuit_amended_witness :
    (uploadStore envShort "s" "r" "ip").2 = .ok () ∧
    (uploadStore envShort "s" "r" "ip").1
      = Event.probeStore "r"
          :: (if (false : Bool) then [] else [Event.promptCreds]) :=
  upload_shortcircuit_amended envShort "s" "r" "ip" ⟨false, true⟩ rfl rfl

/-- C5: Missing content-length is a protocol violation — when the GET
response carries no `content-length` header, both `fetchFile` and
`downloadFile` fail with the missing-content-length error and stream no
body. -/
theorem fetch_missing_length_fails (r : GetResp) (hcl : r.contentLength = none)
    (label dataPath : String) :
    (fetchFile (.ok r) dataPath).2 = .error .missingContentLength ∧
    (downloadFile (.ok r) label dataPath).2 = .error .missingContentLength ∧
    (∀ e ∈ (fetchFile (.ok r) dataPath).1, isStreamEv e = false) ∧
    (∀ e ∈ (downloadFile (.ok r) label dataPath).1, isStreamEv e = false) := by
  have hz : checkedLength r.contentLength = none := by
    rw [hcl]; rfl
  have h1 : fetchFile (.ok r) dataPath
      = ([Event.getFetch dataPath], .error .missingContentLength) := by
    simp [fetchFile, hz]
  have h2 : downloadFile (.ok r) label dataPath
      = ([Event.getFetch dataPath], .error .missingContentLength) := by
    simp [downloadFile, hz]
  rw [h1, h2]
  refine ⟨rfl, rfl, ?_, ?_⟩ <;>
  · intro e he
    simp only [List.mem_singleton] at he
    subst he
    rfl

theorem fetch_missing_length_fails_witness :
    (fetchFile (.ok ⟨none, [7]⟩) "data/aa").2 = .error .missingContentLength ∧
    (downloadFile (.ok ⟨none, [7]⟩) "file1" "data/aa").2
      = .error .missingContentLength ∧
    (∀ e ∈ (fetchFile (.ok ⟨none, [7]⟩) "data/aa").1, isStreamEv e = false) ∧
    (∀ e ∈ (downloadFile (.ok ⟨none, [7]⟩) "file1" "data/aa").1,
      isStreamEv e = false) :=
  fetch_missing_length_fails ⟨none, [7]⟩ rfl "file1" "data/aa"

/-- C10: Zero-length file fetch always fails — a present, well-formed
`content-length: 0` header parses to `0`, which the falsy-value guard
`if (!totalLength)` treats exactly like an absent header, so both
`fetchFile` and `downloadFile` throw the missing-content-length error
instead of succeeding with an empty body. -/
theorem fetch_zero_length_fails (r : GetResp) (hcl : r.contentLength = some "0")
    (label dataPath : String) :
    (fetchFile (.ok r) dataPath).2 = .error .missingContentLength ∧
    (downloadFile (.ok r) label dataPath).2 = .error .missingContentLength := by
  have hz : checkedLength r.contentLength = none := by rw [hcl]; decide
  have h1 : fetchFile (.ok r) dataPath
      = ([Event.getFetch dataPath], .error .missingContentLength) := by
    simp [fetchFile, hz]
  have h2 : downloadFile (.ok r) label dataPath
      = ([Event.getFetch dataPath], .error .missingContentLength) := by
    simp [downloadFile, hz]
  rw [h1, h2]
  exact ⟨rfl, rfl⟩

theorem fetch_zero_length_fails_witness :
    (fetchFile (.ok ⟨some "0", []⟩) "data/aa").2 = .error .missingContentLength ∧
    (downloadFile (.ok ⟨some "0", []⟩) "file1" "data/aa").2
      = .error .missingContentLength :=
  fetch_zero_length_fails ⟨some "0", []⟩ rfl "file1" "data/aa"

/-- C6: Download precondition — `downloadStore` fails immediately, with a
trace containing nothing beyond the probe, whenever the probe reports
`storeExists = false` or `rootHashExists = false`; when both are true it
proceeds to fetch the manifest. -/
theorem download_requires_existence (env : DownloadEnv) (storeId rootHash ip : String)
    (pr : ProbeResult) (hp : env.probe = .ok pr) :
    ((pr.storeExists = false ∨ pr.rootHashExists = false) →
      downloadStore env storeId rootHash ip
        = ([Event.probeStore rootHash], .error .storeMissing)) ∧
    (pr.storeExists = true → pr.rootHashExists = true →
      Event.getFetch (rootHash ++ ".dat") ∈ (downloadStore env storeId rootHash ip).1) := by
  have hds : downloadStore env storeId rootHash ip
      = (Event.probeStore rootHash :: (downloadAfterProbe env rootHash pr).1,
         (downloadAfterProbe env rootHash pr).2) := by
    unfold downloadStore; rw [hp]
  constructor
  · intro h
    rw [hds]
    unfold downloadAfterProbe
    rw [if_pos h]
  · intro hse hrhe
    have hcond : ¬(pr.storeExists = false ∨ pr.rootHashExists = false) := by
      simp [hse, hrhe]
    have hmem := fetchFile_getFirst env.manifestGet (rootHash ++ ".dat")
    rw [hds]
    refine List.mem_cons_of_mem _ ?_
    unfold downloadAfterProbe
    rw [if_neg hcond]
    rcases hmf : (fetchFile env.manifestGet (rootHash ++ ".dat")).2 with e | body
    · simpa using hmem
    · cases hpm : env.parseManifest body with
      | error e => simp only [hpm]; simpa using hmem
      | ok tasks =>
          simp only [hpm]
          by_cases hd : (runDownloads env tasks).2 <;> simp [hd, hmem]

theorem filter_eq_nil_of_all (p : Event → Bool) (tr : List Event)
    (h : ∀ e ∈ tr, p e = false) : tr.filter p = [] :=
  List.filter_eq_nil_iff.mpr (fun e he => by simp [h e he])

theorem countEv_eq_zero (p : Event → Bool) (tr : List Event)
    (h : ∀ e ∈ tr, p e = false) : countEv p tr = 0 := by
  unfold countEv
  rw [filter_eq_nil_of_all p tr h]
  rfl

theorem promptEvents_no_commit (pr : ProbeResult) :
    ∀ e ∈ promptEvents pr, isCommitEv e = false := by
  intro e he
  rw [promptEvents_mem pr e he]
  rfl

/-- A run with one file whose PUT is rejected by the peer. -/
def envFail : UploadEnv :=
  { probe := .ok ⟨true, false⟩
    credentials := ⟨"alice", "pw"⟩
    manifestPresent := true
    startSession := .ok "sess1"
    files := [taskSample]
    nonceResp := fun _ => .ok ⟨"n1", false⟩
    putResp := fun _ => .error ()
    commitResp := .ok () }

/-- Common finisher for every `uploadStore` branch in which no commit event
can occur and the full-success preconditions are contradictory. -/
theorem all_or_nothing_zero_case (env : UploadEnv) (storeId rootHash ip : String)
    (hzero : countEv isCommitEv (uploadStore env storeId rootHash ip).1 = 0)
    (hfail : ∀ pr sid, env.probe = .ok pr → pr.rootHashExists = false →
      env.manifestPresent = true → env.startSession = .ok sid →
      (∀ t ∈ env.files, taskOk env t = true) → False) :
    ((∃ t ∈ env.files, taskOk env t = false) →
        countEv isCommitEv (uploadStore env storeId rootHash ip).1 = 0) ∧
    countEv isCommitEv (uploadStore env storeId rootHash ip).1 ≤ 1 ∧
    (countEv isCommitEv (uploadStore env storeId rootHash ip).1 = 1 →
      (∀ t ∈ env.files, taskOk env t = true) ∧
      ∃ pre c, (uploadStore env storeId rootHash ip).1 = pre ++ [c] ∧
        isCommitEv c = true ∧
        ∀ t ∈ env.files, ∃ sid, Event.nonceHead sid t.dataPath ∈ pre) ∧
    (∀ pr sid, env.probe = .ok pr → pr.rootHashExists = false →
      env.manifestPresent = true → env.startSession = .ok sid →
      (∀ t ∈ env.files, taskOk env t = true) →
      countEv isCommitEv (uploadStore env storeId rootHash ip).1 = 1) := by
  refine ⟨fun _ => hzero, ?_, fun hc => ?_, fun pr sid h1 h2 h3 h4 h5 => ?_⟩
  · rw [hzero]; exact Nat.zero_le 1
  · exact absurd (hzero.symm.trans hc) (by decide)
  · exact (hfail pr sid h1 h2 h3 h4 h5).elim

/-- C1: All-or-nothing commit — in `uploadStore`, for every manifest, if
any single upload task fails then the commit POST never appears in the
trace; the commit POST appears at most once; when it appears, every upload
task succeeded, it is the final event of the run, and every file's upload
interaction precedes it; and on a fully successful run it appears exactly
once. -/
theorem upload_all_or_nothing_commit (env : UploadEnv) (storeId rootHash ip : String) :
    ((∃ t ∈ env.files, taskOk env t = false) →
        countEv isCommitEv (uploadStore env storeId rootHash ip).1 = 0) ∧
    countEv isCommitEv (uploadStore env storeId rootHash ip).1 ≤ 1 ∧
    (countEv isCommitEv (uploadStore env storeId rootHash ip).1 = 1 →
      (∀ t ∈ env.files, taskOk env t = true) ∧
      ∃ pre c, (uploadStore env storeId rootHash ip).1 = pre ++ [c] ∧
        isCommitEv c = true ∧
        ∀ t ∈ env.files, ∃ sid, Event.nonceHead sid t.dataPath ∈ pre) ∧
    (∀ pr sid, env.probe = .ok pr → pr.rootHashExists = false →
      env.manifestPresent = true → env.startSession = .ok sid →
      (∀ t ∈ env.files, taskOk env t = true) →
      countEv isCommitEv (uploadStore env storeId rootHash ip).1 = 1) := by
  have hsplit : (∃ e, env.probe = Except.error e) ∨ (∃ pr, env.probe = Except.ok pr) := by
    rcases env.probe with e | pr
    · exact Or.inl ⟨e, rfl⟩
    · exact Or.inr ⟨pr, rfl⟩
  rcases hsplit with ⟨e, hp⟩ | ⟨pr, hp⟩
  · -- the probe itself failed
    have htr1 : (uploadStore env storeId rootHash ip).1 = [Event.probeStore rootHash] := by
      rw [uploadStore_probe_err env storeId rootHash ip e hp]
    apply all_or_nothing_zero_case
    · rw [htr1]
      exact countEv_eq_zero _ _ (by intro x hx; simp at hx; subst hx; rfl)
    · intro pr sid h1 h2 h3 h4 h5
      rw [hp] at h1
      exact absurd h1 (by simp)
  · by_cases hrh : pr.rootHashExists = true
    · -- root hash already replicated: short-circuit
      have htr1 : (uploadStore env storeId rootHash ip).1
          = Event.probeStore rootHash :: promptEvents pr := by
        rw [uploadStore_probe_ok env storeId rootHash ip pr hp,
            afterProbe_short env _ pr hrh]
      apply all_or_nothing_zero_case
      · rw [htr1]
        refine countEv_eq_zero _ _ ?_
        intro x hx
        rcases List.mem_cons.mp hx with h | h
        · subst h; rfl
        · exact promptEvents_no_commit pr x h
      · intro pr' sid h1 h2 h3 h4 h5
        rw [hp] at h1
        injection h1 with h1e
        subst h1e
        rw [hrh] at h2
        exact absurd h2 (by decide)
    · have hrh' : pr.rootHashExists = false := by simpa using hrh
      have htr1 : (uploadStore env storeId rootHash ip).1
          = Event.probeStore rootHash
              :: (promptEvents pr
                  ++ (startAndUpload env (promptedServer env (initServer ip storeId) pr)).1) := by
        rw [uploadStore_probe_ok env storeId rootHash ip pr hp,
            afterProbe_go env _ pr hrh']
      rcases startAndUpload_shape env (promptedServer env (initServer ip storeId) pr) with
        ⟨hm, hS⟩ | ⟨hm, ⟨e, hs, hS⟩ | ⟨sid, hs, ⟨hr, hS⟩ | ⟨hr, hS⟩⟩⟩
      · -- manifest file missing locally: no session start
        apply all_or_nothing_zero_case
        · rw [htr1, hS]
          refine countEv_eq_zero _ _ ?_
          intro x hx
          rcases List.mem_cons.mp hx with h | h
          · subst h; rfl
          · simp only [List.append_nil] at h
            exact promptEvents_no_commit pr x h
        · intro pr' sid h1 h2 h3 h4 h5
          rw [hm] at h3
          exact absurd h3 (by decide)
      · -- session-start POST rejected
        apply all_or_nothing_zero_case
        · rw [htr1, hS]
          refine countEv_eq_zero _ _ ?_
          intro x hx
          rcases List.mem_cons.mp hx with h | h
          · subst h; rfl
          · rcases List.mem_append.mp h with h2 | h2
            · exact promptEvents_no_commit pr x h2
            · simp at h2; subst h2; rfl
        · intro pr' sid h1 h2 h3 h4 h5
          rw [hs] at h4
          exact absurd h4 (by simp)
      · -- some upload task failed: no commit
        apply all_or_nothing_zero_case
        · rw [htr1, hS]
          refine countEv_eq_zero _ _ ?_
          intro x hx
          rcases List.mem_cons.mp hx with h | h
          · subst h; rfl
          · rcases List.mem_append.mp h with h2 | h2
            · exact promptEvents_no_commit pr x h2
            · rcases List.mem_append.mp h2 with h3 | h3
              · rcases List.mem_cons.mp h3 with h4 | h4
                · subst h4; rfl
                · simp at h4; subst h4; rfl
              · exact (runTasks_events env _ env.files x h3).1
        · intro pr' sid' h1 h2 h3 h4 h5
          have hall : env.files.all (fun t => taskOk env t) = true :=
            List.all_eq_true.mpr h5
          rw [runTasks_snd, hall] at hr
          exact absurd hr (by decide)
      · -- full success: commit happens exactly once, after every task
        have hall : ∀ t ∈ env.files, taskOk env t = true := by
          rw [runTasks_snd] at hr
          exact List.all_eq_true.mp hr
        have hTfree : ∀ x ∈ (runTasks env
            { promptedServer env (initServer ip storeId) pr with sessionId := sid }
            env.files).1, isCommitEv x = false :=
          fun x hx => (runTasks_events env _ env.files x hx).1
        have hcount : countEv isCommitEv (uploadStore env storeId rootHash ip).1 = 1 := by
          rw [htr1, hS]
          simp [countEv, List.filter_append, List.filter_cons,
            filter_eq_nil_of_all _ _ (promptEvents_no_commit pr),
            filter_eq_nil_of_all _ _ hTfree, isCommitEv]
        refine ⟨?_, le_of_eq hcount, fun _ => ⟨hall, ?_⟩, fun _ _ _ _ _ _ _ => hcount⟩
        · intro hex
          rcases hex with ⟨t, ht, hfalse⟩
          rw [hall t ht] at hfalse
          exact absurd hfalse (by decide)
        · refine ⟨Event.probeStore rootHash
              :: (promptEvents pr
                  ++ ([Event.startSessionPost
                        (authConfig (promptedServer env (initServer ip storeId) pr)),
                      Event.setSessionId sid]
                    ++ (runTasks env
                        { promptedServer env (initServer ip storeId) pr with
                            sessionId := sid } env.files).1)),
            Event.commitPost sid
              (authConfig { promptedServer env (initServer ip storeId) pr with
                  sessionId := sid }), ?_, rfl, ?_⟩
          · rw [htr1, hS]
            simp [List.append_assoc]
          · intro t ht
            refine ⟨sid, ?_⟩
            have hmemT := runTasks_mem_nonce env
              { promptedServer env (initServer ip storeId) pr with sessionId := sid }
              env.files t ht
            exact List.mem_cons_of_mem _
              (List.mem_append_right _
                (List.mem_cons_of_mem _ (List.mem_cons_of_mem _ hmemT)))

theorem upload_all_or_nothing_commit_witness :
    countEv isCommitEv (uploadStore envFail "s" "r" "ip").1 = 0 :=
  (upload_all_or_nothing_commit envFail "s" "r" "ip").1
    ⟨taskSample, by decide, by decide⟩

theorem not_startPost_of (e : Event) (h : isSessionStartEv e = false) :
    ∀ a, e = Event.startSessionPost a → False := by
  intro a he
  subst he
  simp [isSessionStartEv] at h

theorem not_commitPost_of (e : Event) (h : isCommitEv e = false) :
    ∀ sid a, e = Event.commitPost sid a → False := by
  intro sid a he
  subst he
  simp [isCommitEv] at h

theorem startAndUpload_posts (env : UploadEnv) (srv : Server) :
    ∀ e ∈ (startAndUpload env srv).1,
      (∀ a, e = Event.startSessionPost a → a = authConfig srv) ∧
      (∀ sid a, e = Event.commitPost sid a → a = authConfig srv) ∧
      isPromptEv e = false := by
  rcases startAndUpload_shape env srv with
    ⟨hm, hS⟩ | ⟨hm, ⟨e0, hs, hS⟩ | ⟨sid, hs, ⟨hr, hS⟩ | ⟨hr, hS⟩⟩⟩ <;> rw [hS]
  · intro e he
    simp at he
  · intro e he
    simp only [List.mem_singleton] at he
    subst he
    refine ⟨?_, ?_, rfl⟩
    · intro a h; injection h with h; exact h.symm
    · intro sid a h; exact Event.noConfusion h
  · intro e he
    rcases List.mem_append.mp he with h | h
    · rcases List.mem_cons.mp h with h1 | h1
      · subst h1
        refine ⟨?_, ?_, rfl⟩
        · intro a h2; injection h2 with h2; exact h2.symm
        · intro sid' a h2; exact Event.noConfusion h2
      · simp only [List.mem_singleton] at h1
        subst h1
        exact ⟨fun a h2 => Event.noConfusion h2,
               fun sid' a h2 => Event.noConfusion h2, rfl⟩
    · obtain ⟨hc, hss, hpp, _, _⟩ := runTasks_events env _ env.files e h
      exact ⟨fun a h2 => (not_startPost_of e hss a h2).elim,
             fun sid' a h2 => (not_commitPost_of e hc sid' a h2).elim, hpp⟩
  · intro e he
    rcases List.mem_append.mp he with h | h
    · rcases List.mem_append.mp h with h0 | h0
      · rcases List.mem_cons.mp h0 with h1 | h1
        · subst h1
          refine ⟨?_, ?_, rfl⟩
          · intro a h2; injection h2 with h2; exact h2.symm
          · intro sid' a h2; exact Event.noConfusion h2
        · simp only [List.mem_singleton] at h1
          subst h1
          exact ⟨fun a h2 => Event.noConfusion h2,
                 fun sid' a h2 => Event.noConfusion h2, rfl⟩
      · obtain ⟨hc, hss, hpp, _, _⟩ := runTasks_events env _ env.files e h0
        exact ⟨fun a h2 => (not_startPost_of e hss a h2).elim,
               fun sid' a h2 => (not_commitPost_of e hc sid' a h2).elim, hpp⟩
    · simp only [List.mem_singleton] at h
      subst h
      refine ⟨fun a h2 => Event.noConfusion h2, ?_, rfl⟩
      intro sid' a h2
      injection h2 with h2a h2b
      exact h2b.symm

/-- A run with `storeExists = false` where the prompt yields empty
credentials. -/
def envEmptyCreds : UploadEnv :=
  { probe := .ok ⟨false, false⟩
    credentials := ⟨"", ""⟩
    manifestPresent := true
    startSession := .ok "sess1"
    files := []
    nonceResp := fun _ => .ok ⟨"n1", false⟩
    putResp := fun _ => .ok ()
    commitResp := .ok () }

/-- Like `envEmptyCreds` but the prompt yields non-empty credentials. -/
def envCredOk : UploadEnv :=
  { envEmptyCreds with credentials := ⟨"alice", "pw"⟩ }

/-- C4 counterexample: the probe reports `x-store-exists: false` and the
credential prompt is invoked exactly once, yet — because the prompt
returned empty strings and the source guards auth attachment with the JS
truthiness test `if (this.username && this.password)` — the one
session-start POST and the one commit POST of this successful run both go
out with NO Basic auth attached, refuting the claim that the prompted
credentials are always attached to both calls. -/
theorem upload_creds_attach_cex :
    countEv isPromptEv (uploadStore envEmptyCreds "s" "r" "ip").1 = 1 ∧
    (uploadStore envEmptyCreds "s" "r" "ip").1.filter isSessionStartEv
      = [Event.startSessionPost none] ∧
    (uploadStore envEmptyCreds "s" "r" "ip").1.filter isCommitEv
      = [Event.commitPost "sess1" none] ∧
    (uploadStore envEmptyCreds "s" "r" "ip").2 = .ok () := by
  refine ⟨rfl, rfl, rfl, rfl⟩

/-- C4 amended: whenever the probe reports `x-store-exists = "false"`, the
credential prompt is invoked exactly once, before the session-start call
(it is the second trace event, preceding everything else); and PROVIDED the
prompted username and password are both non-empty, the resulting Basic auth
credentials are attached to every session-start POST and every commit POST
of the run. -/
theorem upload_creds_attach_amended (env : UploadEnv) (storeId rootHash ip : String)
    (pr : ProbeResult) (hp : env.probe = .ok pr) (hse : pr.storeExists = false) :
    (∃ rest, (uploadStore env storeId rootHash ip).1
        = Event.probeStore rootHash :: Event.promptCreds :: rest ∧
      countEv isPromptEv rest = 0) ∧
    (env.credentials.username ≠ "" → env.credentials.password ≠ "" →
      ∀ e ∈ (uploadStore env storeId rootHash ip).1,
        (∀ a, e = Event.startSessionPost a → a = some env.credentials) ∧
        (∀ sid a, e = Event.commitPost sid a → a = some env.credentials)) := by
  have hpe : promptEvents pr = [Event.promptCreds] := by
    simp [promptEvents, hse]
  have hauth : ∀ hu : env.credentials.username ≠ "", ∀ hpw : env.credentials.password ≠ "",
      authConfig (promptedServer env (initServer ip storeId) pr) = some env.credentials := by
    intro hu hpw
    simp [promptedServer, hse, authConfig, hu, hpw]
  by_cases hrh : pr.rootHashExists = true
  · have htr1 : (uploadStore env storeId rootHash ip).1
        = Event.probeStore rootHash :: Event.promptCreds :: ([] : List Event) := by
      rw [uploadStore_probe_ok env storeId rootHash ip pr hp,
          afterProbe_short env _ pr hrh]
      simp [hpe]
    rw [htr1]
    refine ⟨⟨[], rfl, rfl⟩, ?_⟩
    intro hu hpw e he
    rcases List.mem_cons.mp he with h | h
    · subst h
      exact ⟨fun a h2 => Event.noConfusion h2, fun sid a h2 => Event.noConfusion h2⟩
    · simp only [List.mem_singleton] at h
      subst h
      exact ⟨fun a h2 => Event.noConfusion h2, fun sid a h2 => Event.noConfusion h2⟩
  · have hrh' : pr.rootHashExists = false := by simpa using hrh
    have htr1 : (uploadStore env storeId rootHash ip).1
        = Event.probeStore rootHash :: Event.promptCreds
            :: (startAndUpload env (promptedServer env (initServer ip storeId) pr)).1 := by
      rw [uploadStore_probe_ok env storeId rootHash ip pr hp,
          afterProbe_go env _ pr hrh']
      simp [hpe]
    rw [htr1]
    constructor
    · refine ⟨(startAndUpload env (promptedServer env (initServer ip storeId) pr)).1,
        rfl, ?_⟩
      exact countEv_eq_zero _ _
        (fun e he => (startAndUpload_posts env _ e he).2.2)
    · intro hu hpw e he
      rcases List.mem_cons.mp he with h | h
      · subst h
        exact ⟨fun a h2 => Event.noConfusion h2, fun sid a h2 => Event.noConfusion h2⟩
      · rcases List.mem_cons.mp h with h1 | h1
        · subst h1
          exact ⟨fun a h2 => Event.noConfusion h2, fun sid a h2 => Event.noConfusion h2⟩
        · obtain ⟨hstart, hcommit, _⟩ := startAndUpload_posts env _ e h1
          refine ⟨fun a h2 => ?_, fun sid a h2 => ?_⟩
          · rw [hstart a h2]
            exact hauth hu hpw
          · rw [hcommit sid a h2]
            exact hauth hu hpw

theorem upload_creds_attach_amended_witness :
    ∃ rest, (uploadStore envCredOk "s" "r" "ip").1
        = Event.probeStore "r" :: Event.promptCreds :: rest ∧
      countEv isPromptEv rest = 0 :=
  (upload_creds_attach_amended envCredOk "s" "r" "ip" ⟨false, false⟩ rfl rfl).1

theorem download_requires_existence_witness :
    downloadStore envDownNo "s" "r" "ip"
      = ([Event.probeStore "r"], .error .storeMissing) :=
  (download_requires_existence envDownNo "s" "r" "ip" ⟨false, true⟩ rfl).1 (Or.inl rfl)

theorem pool_inflight_le (limit : Nat) (tasks : List FileTask) (s : PoolState)
    (h : PoolReachable limit tasks s) : s.inflight.length ≤ limit := by
  induction h with
  | refl => exact Nat.zero_le limit
  | tail hsteps hstep ih =>
      cases hstep with
      | start t rest b hlt hpend => exact hlt
      | finish t b hmem =>
          exact le_trans (List.Sublist.length_le (List.erase_sublist _ _)) ih

/-- C8: Concurrency bound — with the upload limit constant 3 and the
download limit constant 5 from the source, no state the transfer pool can
reach, for any manifest task list, ever has more than the limit of
transfers in flight. -/
theorem transfer_concurrency_bound (tasks : List FileTask) (s : PoolState) :
    (PoolReachable uploadConcurrencyLimit tasks s → s.inflight.length ≤ 3) ∧
    (PoolReachable downloadConcurrencyLimit tasks s → s.inflight.length ≤ 5) :=
  ⟨fun h => pool_inflight_le uploadConcurrencyLimit tasks s h,
   fun h => pool_inflight_le downloadConcurrencyLimit tasks s h⟩

theorem transfer_concurrency_bound_witness :
    (⟨[], [taskSample], []⟩ : PoolState).inflight.length ≤ 3 ∧
    (poolInit [taskSample]).inflight.length ≤ 5 :=
  ⟨(transfer_concurrency_bound [taskSample] ⟨[], [taskSample], []⟩).1
      (Relation.ReflTransGen.tail Relation.ReflTransGen.refl
        (PoolStep.start taskSample [] (poolInit [taskSample]) (by decide) rfl)),
   (transfer_concurrency_bound [taskSample] (poolInit [taskSample])).2
      Relation.ReflTransGen.refl⟩

/-! ### Session-id bookkeeping lemmas -/

theorem setSids_nil : setSids [] = [] := rfl

theorem usedSids_nil : usedSids [] = [] := rfl

theorem setSids_probe (rh : String) (l : List Event) :
    setSids (Event.probeStore rh :: l) = setSids l := rfl

theorem setSids_startPost (a : Option Credentials) (l : List Event) :
    setSids (Event.startSessionPost a :: l) = setSids l := rfl

theorem setSids_set (s : String) (l : List Event) :
    setSids (Event.setSessionId s :: l) = s :: setSids l := rfl

theorem usedSids_probe (rh : String) (l : List Event) :
    usedSids (Event.probeStore rh :: l) = usedSids l := rfl

theorem usedSids_startPost (a : Option Credentials) (l : List Event) :
    usedSids (Event.startSessionPost a :: l) = usedSids l := rfl

theorem setSids_append (a b : List Event) :
    setSids (a ++ b) = setSids a ++ setSids b := by
  unfold setSids
  rw [List.filterMap_append]

theorem usedSids_append (a b : List Event) :
    usedSids (a ++ b) = usedSids a ++ usedSids b := by
  unfold usedSids
  rw [List.filterMap_append]

theorem promptEvents_setSids (pr : ProbeResult) : setSids (promptEvents pr) = [] := by
  unfold promptEvents
  by_cases h : pr.storeExists <;> simp [h, setSids, setSid]

theorem promptEvents_usedSids (pr : ProbeResult) : usedSids (promptEvents pr) = [] := by
  unfold promptEvents
  by_cases h : pr.storeExists <;> simp [h, usedSids, usedSid]

theorem runTasks_setSids (env : UploadEnv) (srv : Server) (ts : List FileTask) :
    setSids (runTasks env srv ts).1 = [] := by
  unfold setSids
  rw [List.filterMap_eq_nil_iff]
  intro e he
  exact (runTasks_events env srv ts e he).2.2.2.1

theorem runTasks_usedSids (env : UploadEnv) (srv : Server) (ts : List FileTask) :
    ∀ s ∈ usedSids (runTasks env srv ts).1, s = srv.sessionId := by
  intro s hs
  unfold usedSids at hs
  rcases List.mem_filterMap.mp hs with ⟨e, he, hf⟩
  rcases (runTasks_events env srv ts e he).2.2.2.2 with h | h
  · rw [h] at hf
    exact absurd hf (by simp)
  · rw [h] at hf
    injection hf with hf
    exact hf.symm

/-- C9: sessionId single-assignment — across every `uploadStore` run, the
`sessionId` field is written at most once; any written value is exactly the
session-start response's id; and whenever any later operation reads a
session id, the trace splits as a prefix containing no session-id reads or
writes, the single write, and a suffix with no further writes in which
every read yields the written value. -/
theorem session_id_single_assignment (env : UploadEnv) (storeId rootHash ip : String) :
    (setSids (uploadStore env storeId rootHash ip).1).length ≤ 1 ∧
    (∀ sid, sid ∈ setSids (uploadStore env storeId rootHash ip).1 →
        env.startSession = Except.ok sid) ∧
    (usedSids (uploadStore env storeId rootHash ip).1 ≠ [] →
      ∃ sid pre rest, env.startSession = Except.ok sid ∧
        (uploadStore env storeId rootHash ip).1
          = pre ++ Event.setSessionId sid :: rest ∧
        usedSids pre = [] ∧ setSids pre = [] ∧ setSids rest = [] ∧
        ∀ s ∈ usedSids rest, s = sid) := by
  have hsplit : (∃ e, env.probe = Except.error e) ∨ (∃ pr, env.probe = Except.ok pr) := by
    rcases env.probe with e | pr
    · exact Or.inl ⟨e, rfl⟩
    · exact Or.inr ⟨pr, rfl⟩
  rcases hsplit with ⟨e, hp⟩ | ⟨pr, hp⟩
  · have htr1 : (uploadStore env storeId rootHash ip).1 = [Event.probeStore rootHash] := by
      rw [uploadStore_probe_err env storeId rootHash ip e hp]
    rw [htr1]
    refine ⟨by rw [show setSids [Event.probeStore rootHash] = [] from rfl]; decide, ?_, ?_⟩
    · intro sid hsid
      exact absurd hsid (by simp [setSids, setSid])
    · intro hne
      exact absurd (show usedSids [Event.probeStore rootHash] = [] from rfl) hne
  · by_cases hrh : pr.rootHashExists = true
    · have htr1 : (uploadStore env storeId rootHash ip).1
          = Event.probeStore rootHash :: promptEvents pr := by
        rw [uploadStore_probe_ok env storeId rootHash ip pr hp,
            afterProbe_short env _ pr hrh]
      have hset : setSids (Event.probeStore rootHash :: promptEvents pr) = [] := by
        rw [setSids_probe, promptEvents_setSids]
      have hused : usedSids (Event.probeStore rootHash :: promptEvents pr) = [] := by
        rw [usedSids_probe, promptEvents_usedSids]
      rw [htr1]
      refine ⟨by rw [hset]; decide, ?_, fun hne => absurd hused hne⟩
      intro sid hsid
      rw [hset] at hsid
      exact absurd hsid (List.not_mem_nil sid)
    · have hrh' : pr.rootHashExists = false := by simpa using hrh
      have htr1 : (uploadStore env storeId rootHash ip).1
          = Event.probeStore rootHash
              :: (promptEvents pr
                  ++ (startAndUpload env (promptedServer env (initServer ip storeId) pr)).1) := by
        rw [uploadStore_probe_ok env storeId rootHash ip pr hp,
            afterProbe_go env _ pr hrh']
      rcases startAndUpload_shape env (promptedServer env (initServer ip storeId) pr) with
        ⟨hm, hS⟩ | ⟨hm, ⟨e0, hs, hS⟩ | ⟨sid, hs, ⟨hr, hS⟩ | ⟨hr, hS⟩⟩⟩
      · -- no session start: manifest missing
        rw [htr1, hS, List.append_nil]
        have hset : setSids (Event.probeStore rootHash :: promptEvents pr) = [] := by
          rw [setSids_probe, promptEvents_setSids]
        have hused : usedSids (Event.probeStore rootHash :: promptEvents pr) = [] := by
          rw [usedSids_probe, promptEvents_usedSids]
        refine ⟨by rw [hset]; decide, ?_, fun hne => absurd hused hne⟩
        intro sid hsid
        rw [hset] at hsid
        exact absurd hsid (List.not_mem_nil sid)
      · -- session-start POST rejected: nothing written
        rw [htr1, hS]
        have hset : setSids (Event.probeStore rootHash
            :: (promptEvents pr
                ++ [Event.startSessionPost
                      (authConfig (promptedServer env (initServer ip storeId) pr))])) = [] := by
          rw [setSids_probe, setSids_append, promptEvents_setSids]
          rfl
        have hused : usedSids (Event.probeStore rootHash
            :: (promptEvents pr
                ++ [Event.startSessionPost
                      (authConfig (promptedServer env (initServer ip storeId) pr))])) = [] := by
          rw [usedSids_probe, usedSids_append, promptEvents_usedSids]
          rfl
        refine ⟨by rw [hset]; decide, ?_, fun hne => absurd hused hne⟩
        intro sid hsid
        rw [hset] at hsid
        exact absurd hsid (List.not_mem_nil sid)
      · -- session started, some task failed: one write, reads follow it
        rw [htr1, hS]
        simp only [List.cons_append, List.nil_append]
        have hset : setSids (Event.probeStore rootHash
            :: (promptEvents pr
                ++ Event.startSessionPost
                     (authConfig (promptedServer env (initServer ip storeId) pr))
                  :: Event.setSessionId sid
                  :: (runTasks env
                      { promptedServer env (initServer ip storeId) pr with
                          sessionId := sid } env.files).1)) = [sid] := by
          rw [setSids_probe, setSids_append, promptEvents_setSids,
              List.nil_append, setSids_startPost, setSids_set, runTasks_setSids]
        refine ⟨by rw [hset]; simp, ?_, ?_⟩
        · intro sid' hsid
          rw [hset] at hsid
          simp only [List.mem_singleton] at hsid
          subst hsid
          exact hs
        · intro _
          refine ⟨sid,
            Event.probeStore rootHash
              :: (promptEvents pr
                  ++ [Event.startSessionPost
                        (authConfig (promptedServer env (initServer ip storeId) pr))]),
            (runTasks env
                { promptedServer env (initServer ip storeId) pr with
                    sessionId := sid } env.files).1,
            hs, ?_, ?_, ?_, ?_, ?_⟩
          · simp [List.cons_append, List.append_assoc]
          · rw [usedSids_probe, usedSids_append, promptEvents_usedSids]
            rfl
          · rw [setSids_probe, setSids_append, promptEvents_setSids]
            rfl
          · exact runTasks_setSids env _ env.files
          · intro s hsu
            exact runTasks_usedSids env _ env.files s hsu
      · -- full success: one write, all reads (including commit) follow it
        rw [htr1, hS]
        simp only [List.cons_append, List.nil_append]
        have hset : setSids (Event.probeStore rootHash
            :: (promptEvents pr
                ++ Event.startSessionPost
                     (authConfig (promptedServer env (initServer ip storeId) pr))
                  :: Event.setSessionId sid
                  :: ((runTasks env
                      { promptedServer env (initServer ip storeId) pr with
                          sessionId := sid } env.files).1
                    ++ [Event.commitPost sid
                          (authConfig { promptedServer env (initServer ip storeId) pr with
                              sessionId := sid })]))) = [sid] := by
          rw [setSids_probe, setSids_append, promptEvents_setSids,
              List.nil_append, setSids_startPost, setSids_set, setSids_append, runTasks_setSids]
          rfl
        refine ⟨by rw [hset]; simp, ?_, ?_⟩
        · intro sid' hsid
          rw [hset] at hsid
          simp only [List.mem_singleton] at hsid
          subst hsid
          exact hs
        · intro _
          refine ⟨sid,
            Event.probeStore rootHash
              :: (promptEvents pr
                  ++ [Event.startSessionPost
                        (authConfig (promptedServer env (initServer ip storeId) pr))]),
            (runTasks env
                { promptedServer env (initServer ip storeId) pr with
                    sessionId := sid } env.files).1
              ++ [Event.commitPost sid
                    (authConfig { promptedServer env (initServer ip storeId) pr with
                        sessionId := sid })],
            hs, ?_, ?_, ?_, ?_, ?_⟩
          · simp [List.cons_append, List.append_assoc]
          · rw [usedSids_probe, usedSids_append, promptEvents_usedSids]
            rfl
          · rw [setSids_probe, setSids_append, promptEvents_setSids]
            rfl
          · rw [setSids_append, runTasks_setSids]
            rfl
          · intro s hsu
            rw [usedSids_append] at hsu
            rcases List.mem_append.mp hsu with h | h
            · exact runTasks_usedSids env _ env.files s h
            · have hone : usedSids [Event.commitPost sid
                  (authConfig { promptedServer env (initServer ip storeId) pr with
                      sessionId := sid })] = [sid] := rfl
              rw [hone] at h
              simp only [List.mem_singleton] at h
              exact h

theorem session_id_single_assignment_witness :
    (setSids (uploadStore envFail "s" "r" "ip").1).length ≤ 1 :=
  (session_id_single_assignment envFail "s" "r" "ip").1

end DigSdk
